import Mathlib

/-!
Verification of the gotenberg telemetry/logging core against its
natural-language specification.

Shallow embedding of:
  * the logging bridge core (pkg/modules/logging, the buffering
    `bridgeCore` with its shared state, `SetTarget` replay and `Write`);
  * the logging root core (`rootCore` with level-floor clamp and field
    key prefixing);
  * the otel module (`Validate`, `Stop` error aggregation, `TraceStart`,
    and the instrument-kind dispatch of `Start`).

State is passed explicitly: a Go method mutating the shared state
becomes a Lean function from state to state. The external zap target
core is modelled as a record of its `Check` decision, its `Write` error
result, and the ordered list of entries it has observed.
-/

/-- A structured log field (zapcore.Field): a key and an opaque payload. -/
structure LogField where
  key : String
  val : Nat
deriving DecidableEq

/-- A log entry (zapcore.Entry): its level (zapcore.Level, an integer
where Debug = -1) and message. -/
structure Entry where
  level : Int
  msg : String
deriving DecidableEq

/-- `internalKey`: if present among an entry's field keys, the bridge
core ignores the entry (src/unnamed/part_000). -/
def internalKey : String := "internal"

/-- `bufferedLog`: an entry and its resolved fields, held in the bridge
buffer while no target is attached. -/
structure BufferedLog where
  ent : Entry
  fields : List LogField
deriving DecidableEq

/-- Model of the external target core handed to `SetTarget`:
`checkOk e` is whether `target.Check e nil` returns a non-nil checked
entry; `writeErr e fs` is the error `target.Write e fs` returns;
`observed` is the ordered list of (entry, fields) writes the target has
received. -/
structure TargetCore where
  checkOk : Entry → Bool
  writeErr : Entry → List LogField → Option String
  observed : List (Entry × List LogField)

/-- A write reaching the target: it records the entry and its fields. -/
def TargetCore.ceWrite (t : TargetCore) (e : Entry) (fs : List LogField) : TargetCore :=
  { t with observed := t.observed ++ [(e, fs)] }

/-- `sharedBridgeState`: the state shared by every handle of one bridge
core instance — the attached target (if any) and the pre-attachment
buffer. -/
structure SharedBridgeState where
  target : Option TargetCore
  buffer : List BufferedLog

/-- `newBridgeCore`: fresh shared state — no target, empty buffer. -/
def newBridgeCore : SharedBridgeState :=
  { target := none, buffer := [] }

/-- One step of the replay loop in `SetTarget`: check the buffered entry
against the target and, if admitted, write it. -/
def replayStep (acc : TargetCore) (log : BufferedLog) : TargetCore :=
  if acc.checkOk log.ent then acc.ceWrite log.ent log.fields else acc

namespace bridgeCore

/-- `bridgeCore.SetTarget`: under the lock, set the target, replay the
buffer in order through the target's own Check, then clear the buffer. -/
def SetTarget (s : SharedBridgeState) (core : TargetCore) : SharedBridgeState :=
  { target := some (s.buffer.foldl replayStep core), buffer := [] }

/-- `bridgeCore.Write`: combine the handle's accumulated fields with the
call fields; drop internally-marked entries; forward to the target when
attached; otherwise buffer while fewer than 1000 entries are held, else
drop silently. `bfields` are the handle's accumulated `With` fields. -/
def Write (bfields : List LogField) (s : SharedBridgeState) (ent : Entry)
    (fields : List LogField) : SharedBridgeState × Option String :=
  let allFields := bfields ++ fields
  if allFields.any (fun f => f.key == internalKey) then
    (s, none)
  else
    match s.target with
    | some t =>
        ({ s with target := some (t.ceWrite ent allFields) }, t.writeErr ent allFields)
    | none =>
        if s.buffer.length < 1000 then
          ({ s with buffer := s.buffer ++ [{ ent := ent, fields := allFields }] }, none)
        else
          (s, none)

end bridgeCore

/-- Sequencing several `Write` calls through one handle. -/
def writeAll (bfields : List LogField) (s : SharedBridgeState)
    (es : List (Entry × List LogField)) : SharedBridgeState :=
  es.foldl (fun acc e => (bridgeCore.Write bfields acc e.1 e.2).1) s

/-- An (entry, call-fields) pair is non-internal when no combined field
carries the internal marker key. -/
def nonInternal (bfields : List LogField) (e : Entry × List LogField) : Bool :=
  !((bfields ++ e.2).any (fun f => f.key == internalKey))

/-- zapcore.DebugLevel: the lowest named zap level, value -1. -/
def DebugLevel : Int := -1

/-- Model of the core a `rootCore` wraps (the embedded zapcore.Core):
the fields it has accumulated through `With`, its level-enablement
function, and the ordered list of writes it has received. A write is
observed together with the accumulated fields, mirroring how a zap core
emits stored fields alongside call-time fields. -/
structure InnerCore where
  accFields : List LogField
  enabledLevels : Int → Bool
  written : List (Entry × List LogField)

/-- The inner core's `With`: accumulate fields. -/
def InnerCore.withFields (c : InnerCore) (fs : List LogField) : InnerCore :=
  { c with accFields := c.accFields ++ fs }

/-- The inner core's `Write`: record the entry with accumulated plus
call-time fields. -/
def InnerCore.write (c : InnerCore) (e : Entry) (fs : List LogField) : InnerCore :=
  { c with written := c.written ++ [(e, c.accFields ++ fs)] }

/-- The key rewrite rootCore applies when a fields prefix is configured:
each key becomes `p_key`; no rewrite when the prefix is empty
(pkg/modules/logging/rootcore.go). -/
def prefixKeys (p : String) (fs : List LogField) : List LogField :=
  if p = "" then fs else fs.map (fun f => { f with key := p ++ "_" ++ f.key })

/-- `rootCore`: wraps an inner core and carries the configured
field-name prefix (Go field `fieldsPrefix`, named `fieldsPfx` here). -/
structure rootCore where
  core : InnerCore
  fieldsPfx : String

/-- `rootCore.With`: rewrite the new fields' keys with the prefix, then
delegate to the inner core's `With`. -/
def rootCore.With (c : rootCore) (fields : List LogField) : rootCore :=
  { core := c.core.withFields (prefixKeys c.fieldsPfx fields), fieldsPfx := c.fieldsPfx }

/-- The level clamp both `rootCore.Check` and `rootCore.Write` apply:
a level below DebugLevel is raised to DebugLevel. -/
def clampLevel (e : Entry) : Entry :=
  if e.level < DebugLevel then { e with level := DebugLevel } else e

/-- `rootCore.Check`: clamp the level, then admit the (clamped) entry
iff the inner core's enablement accepts its level; `some e` models
`ce.AddCore(e, c)`, `none` models returning `ce` unchanged. -/
def rootCore.Check (c : rootCore) (entry : Entry) : Option Entry :=
  let e := clampLevel entry
  if c.core.enabledLevels e.level then some e else none

/-- `rootCore.Write`: clamp the level, rewrite the call-time field keys
with the prefix, and delegate to the inner core's `Write`. -/
def rootCore.Write (c : rootCore) (entry : Entry) (fields : List LogField) : rootCore :=
  { c with core := c.core.write (clampLevel entry) (prefixKeys c.fieldsPfx fields) }

/-- Configuration-relevant state of the otel module
(pkg/modules/otel/otel.go, struct `Otel`). The field name
`metricExporterProcotol` keeps the source's spelling. -/
structure Otel where
  serviceName : String
  logExporterProtocol : String
  enableLogExporter : Bool
  metricExporterProcotol : String
  enableMetricExporter : Bool
  spanExporterProtocol : String
  enableSpanExporter : Bool

/-- The guard `!enableMetricExporter && !enableSpanExporter &&
!enableLogExporter` shared by Validate, Start, StartupMessage and Stop. -/
def noExporterEnabled (mod : Otel) : Bool :=
  !mod.enableMetricExporter && !mod.enableSpanExporter && !mod.enableLogExporter

/-- Validation error for an empty service name. -/
def svcNameErr : String := "service name must not be empty"

/-- Validation error for a non-grpc log exporter protocol. -/
def logProtoErr : String :=
  "currently, only the grpc protocol is supported for the OTLP log exporter"

/-- Validation error for a non-grpc metric exporter protocol. -/
def metricProtoErr : String :=
  "currently, only the grpc protocol is supported for the OTLP metric exporter"

/-- Validation error for a non-grpc span exporter protocol. -/
def spanProtoErr : String :=
  "currently, only the grpc protocol is supported for the OTLP span exporter"

/-- go.uber.org/multierr `Append` on our error model: a Go error is a
list of messages, `[]` standing for nil. -/
def multierrAppend (err : List String) (e : String) : List String :=
  err ++ [e]

/-- `Otel.Validate`: nil when no exporter is enabled; otherwise
accumulate (via multierr.Append, never short-circuiting) an error for an
empty service name and one per enabled exporter whose protocol is not
"grpc". -/
def Otel.Validate (mod : Otel) : List String :=
  if noExporterEnabled mod then []
  else
    let err : List String := []
    let err := if mod.serviceName == "" then multierrAppend err svcNameErr else err
    let err := if mod.enableLogExporter && !(mod.logExporterProtocol == "grpc") then
      multierrAppend err logProtoErr else err
    let err := if mod.enableMetricExporter && !(mod.metricExporterProcotol == "grpc") then
      multierrAppend err metricProtoErr else err
    let err := if mod.enableSpanExporter && !(mod.spanExporterProtocol == "grpc") then
      multierrAppend err spanProtoErr else err
    err

/-- A Go error value as Stop sees one from a provider shutdown: either
one satisfying `errors.Is(err, context.Canceled)`, or a genuine error
with a message. `Option GoErr` is a nilable Go error. -/
inductive GoErr where
  | canceled : GoErr
  | genuine : String → GoErr
deriving DecidableEq

/-- `filterErr` inside `Otel.Stop`: map a context-cancellation error to
nil, keep anything else. -/
def filterErr : Option GoErr → Option GoErr
  | some GoErr.canceled => none
  | e => e

/-- `errors.Join`: nil when every input is nil, otherwise the combined
error listing each non-nil input in order; the combined error is the
list of surviving errors, `[]` standing for nil. -/
def errorsJoin (errs : List (Option GoErr)) : List GoErr :=
  errs.filterMap id

/-- `Otel.Stop`: nil when no exporter is enabled. Otherwise each
goroutine yields nil for a disabled exporter and its provider's shutdown
result for an enabled one; the results are filtered through `filterErr`
and joined (collection order: log, metric, tracer). -/
def Otel.Stop (mod : Otel) (shutLog shutMetric shutTracer : Option GoErr) : List GoErr :=
  if noExporterEnabled mod then []
  else
    let errLog := if mod.enableLogExporter then shutLog else none
    let errMetric := if mod.enableMetricExporter then shutMetric else none
    let errTracer := if mod.enableSpanExporter then shutTracer else none
    errorsJoin [filterErr errLog, filterErr errMetric, filterErr errTracer]

/-- `Otel.TraceStart` (contexts and spans opaque, as naturals;
`tracerStart` models `mod.otlpTracer.Start`): when the span exporter is
enabled, start a real span; otherwise the function body is `return nil`
— no (context, span) pair is produced, modelled as `none`. -/
def Otel.TraceStart (mod : Otel) (tracerStart : Nat → String → Nat × Nat)
    (ctx : Nat) (name : String) : Option (Nat × Nat) :=
  if mod.enableSpanExporter then some (tracerStart ctx name) else none

/-- gotenberg.MetricInstrument is a Go int. -/
abbrev MetricInstrument := Int

/-- gotenberg.CounterInstrument (iota 0). -/
def CounterInstrument : MetricInstrument := 0

/-- gotenberg.UpDownCounterInstrument (iota 1). -/
def UpDownCounterInstrument : MetricInstrument := 1

/-- gotenberg.HistogramInstrument (iota 2). -/
def HistogramInstrument : MetricInstrument := 2

/-- gotenberg.GaugeInstrument (iota 3). -/
def GaugeInstrument : MetricInstrument := 3

/-- gotenberg.Metric, restricted to the fields `Otel.Start`'s instrument
dispatch consults. -/
structure Metric where
  name : String
  description : String
  instrument : MetricInstrument
deriving DecidableEq

/-- Whether a metric's instrument hits one of the four switch cases of
`Otel.Start`'s metric loop. -/
def knownInstrument (m : Metric) : Bool :=
  m.instrument == CounterInstrument || m.instrument == UpDownCounterInstrument ||
    m.instrument == HistogramInstrument || m.instrument == GaugeInstrument

/-- The metric-instrument dispatch loop of `Otel.Start`
(otel.go, `for _, m := range mod.metrics { switch m.Instrument ... }`):
each known instrument kind spawns its poller (instrument construction
against the already-built meter is modelled as succeeding, being
environment I/O); the default case aborts Start at the first metric with
an unknown kind, returning `fmt.Errorf("unknown instrument: %d", ...)`. -/
def startInstruments : List Metric → Option String
  | [] => none
  | m :: rest =>
      if knownInstrument m then startInstruments rest
      else some ("unknown instrument: " ++ toString m.instrument)

/-! ## Helper lemmas about the bridge core -/

/-- The replay fold keeps the target's Check decision and Write-error
function, and appends to its observations exactly the buffered entries
its Check admits, in buffer order. -/
theorem replay_foldl_spec (buf : List BufferedLog) (t : TargetCore) :
    (buf.foldl replayStep t).checkOk = t.checkOk ∧
    (buf.foldl replayStep t).writeErr = t.writeErr ∧
    (buf.foldl replayStep t).observed =
      t.observed ++ (buf.filter (fun l => t.checkOk l.ent)).map (fun l => (l.ent, l.fields)) := by
  induction buf generalizing t with
  | nil => simp
  | cons l buf ih =>
      rw [List.foldl_cons]
      by_cases hc : t.checkOk l.ent = true
      · have hstep : replayStep t l = t.ceWrite l.ent l.fields := by simp [replayStep, hc]
        rw [hstep]
        rcases ih (t.ceWrite l.ent l.fields) with ⟨h1, h2, h3⟩
        refine ⟨by simpa [TargetCore.ceWrite] using h1,
          by simpa [TargetCore.ceWrite] using h2, ?_⟩
        rw [h3]
        simp [TargetCore.ceWrite, List.filter_cons, hc]
      · have hstep : replayStep t l = t := by simp [replayStep, hc]
        rw [hstep]
        rcases ih t with ⟨h1, h2, h3⟩
        refine ⟨h1, h2, ?_⟩
        rw [h3]
        simp only [Bool.not_eq_true] at hc
        simp [List.filter_cons, hc]

/-- Writing a sequence of non-internal entries while no target is
attached leaves the target absent and extends the buffer with exactly
those entries that fit under the 1000-entry cap, in order, each carrying
the handle's fields followed by its call fields. -/
theorem writeAll_buffering (bfields : List LogField) (es : List (Entry × List LogField))
    (s : SharedBridgeState) (hT : s.target = none)
    (hni : ∀ e ∈ es, nonInternal bfields e = true)
    (hlen : s.buffer.length ≤ 1000) :
    writeAll bfields s es =
      { target := none,
        buffer := s.buffer ++
          ((es.take (1000 - s.buffer.length)).map
            (fun e => ({ ent := e.1, fields := bfields ++ e.2 } : BufferedLog))) } := by
  induction es generalizing s with
  | nil =>
      cases s with
      | mk tg bf =>
          simp only [writeAll, List.foldl_nil, List.take_nil, List.map_nil, List.append_nil]
          simp_all
  | cons e es ih =>
      have hnie : nonInternal bfields e = true := hni e (List.mem_cons_self e es)
      have hnies : ∀ x ∈ es, nonInternal bfields x = true :=
        fun x hx => hni x (List.mem_cons_of_mem e hx)
      have hguard : ((bfields ++ e.2).any (fun f => f.key == internalKey)) = false := by
        simpa [nonInternal] using hnie
      unfold writeAll
      rw [List.foldl_cons]
      show writeAll bfields (bridgeCore.Write bfields s e.1 e.2).1 es = _
      by_cases hfull : s.buffer.length < 1000
      · have hstep : (bridgeCore.Write bfields s e.1 e.2).1 =
            { s with buffer := s.buffer ++ [{ ent := e.1, fields := bfields ++ e.2 }] } := by
          unfold bridgeCore.Write
          rw [hT]
          simp [hguard, hfull]
        rw [hstep]
        rw [ih _ (by simpa using hT) hnies
          (by simp only [List.length_append, List.length_cons, List.length_nil]; omega)]
        have harith : 1000 - s.buffer.length = (1000 - (s.buffer.length + 1)) + 1 := by omega
        simp only [List.length_append, List.length_cons, List.length_nil]
        rw [harith, List.take_succ_cons]
        simp
      · have hstep : (bridgeCore.Write bfields s e.1 e.2).1 = s := by
          unfold bridgeCore.Write
          rw [hT]
          simp [hguard, hfull]
        rw [hstep, ih s hT hnies hlen]
        have harith : 1000 - s.buffer.length = 0 := by omega
        rw [harith]
        simp

/-- Filtering a mapped buffer by a predicate on the entry commutes with
the map into buffered logs. -/
theorem filter_map_buffered (es : List (Entry × List LogField)) (bfields : List LogField)
    (q : Entry → Bool) :
    ((es.map (fun e => ({ ent := e.1, fields := bfields ++ e.2 } : BufferedLog))).filter
        (fun l => q l.ent)).map (fun l => (l.ent, l.fields)) =
      (es.filter (fun e => q e.1)).map (fun e => (e.1, bfields ++ e.2)) := by
  induction es with
  | nil => simp
  | cons e es ih =>
      by_cases hq : q e.1 = true
      · simp [List.filter_cons, hq, ih]
      · simp only [Bool.not_eq_true] at hq
        simp [List.filter_cons, hq, ih]

/-- A Write reaching an attached target keeps the buffer unchanged and
keeps a target attached. -/
theorem write_after_attach (bfields fields : List LogField) (u : SharedBridgeState)
    (t : TargetCore) (ent : Entry) (hu : u.target = some t) :
    (bridgeCore.Write bfields u ent fields).1.buffer = u.buffer ∧
    ∃ t2, (bridgeCore.Write bfields u ent fields).1.target = some t2 := by
  unfold bridgeCore.Write
  by_cases hg : ((bfields ++ fields).any (fun f => f.key == internalKey)) = true
  · simp [hg, hu]
  · simp only [Bool.not_eq_true] at hg
    simp [hg, hu]

/-- Any sequence of Writes against a state with an attached target keeps
the buffer unchanged and the target attached. -/
theorem writeAll_after_attach (bfields : List LogField) (es : List (Entry × List LogField))
    (u : SharedBridgeState) (t : TargetCore) (hu : u.target = some t) :
    (writeAll bfields u es).buffer = u.buffer ∧
    ∃ t2, (writeAll bfields u es).target = some t2 := by
  induction es generalizing u t with
  | nil => exact ⟨rfl, t, hu⟩
  | cons e es ih =>
      obtain ⟨hb, t2, ht2⟩ := write_after_attach bfields e.2 u t e.1 hu
      obtain ⟨hb2, t3, ht3⟩ := ih (bridgeCore.Write bfields u e.1 e.2).1 t2 ht2
      refine ⟨?_, t3, ?_⟩
      · show (writeAll bfields (bridgeCore.Write bfields u e.1 e.2).1 es).buffer = u.buffer
        rw [hb2, hb]
      · show (writeAll bfields (bridgeCore.Write bfields u e.1 e.2).1 es).target = some t3
        exact ht3

/-! ## The claims -/

/-- C1: writing non-internal entries E1..En (n ≤ 1000) to a bridge core
before any target is attached, then attaching a recording target via
SetTarget, makes the target observe exactly the entries its own Check
admits, in the original write order, each exactly once, with the
handle's accumulated fields followed by the call fields. -/
theorem bridge_buffer_replay_in_order (bfields : List LogField)
    (es : List (Entry × List LogField)) (t : TargetCore)
    (hn : es.length ≤ 1000)
    (hni : ∀ e ∈ es, nonInternal bfields e = true)
    (ht : t.observed = []) :
    (bridgeCore.SetTarget (writeAll bfields newBridgeCore es) t).target.map
        TargetCore.observed
      = some ((es.filter (fun e => t.checkOk e.1)).map (fun e => (e.1, bfields ++ e.2))) := by
  rw [writeAll_buffering bfields es newBridgeCore rfl hni (by simp [newBridgeCore])]
  have h0 : newBridgeCore.buffer = [] := rfl
  rw [h0]
  simp only [List.length_nil, Nat.sub_zero, List.nil_append]
  rw [List.take_of_length_le (by omega)]
  unfold bridgeCore.SetTarget
  simp only [Option.map_some']
  rw [(replay_foldl_spec _ t).2.2, ht, filter_map_buffered]
  simp


/-- Sample recording target whose Check admits only level-0 entries. -/
def levelZeroTarget : TargetCore :=
  { checkOk := fun e => e.level == 0, writeErr := fun _ _ => none, observed := [] }

/-- Sample recording target whose Check admits every entry. -/
def acceptAllTarget : TargetCore :=
  { checkOk := fun _ => true, writeErr := fun _ _ => none, observed := [] }

/-- Three sample (entry, call-fields) writes, the middle one at a level
the sample target suppresses. -/
def sampleWrites : List (Entry × List LogField) :=
  [({ level := 0, msg := "one" }, []), ({ level := 2, msg := "two" }, []),
    ({ level := 0, msg := "three" }, [])]

/-- Concrete instance of C1: three buffered entries, a target whose
Check admits only level-0 entries; it observes the first and third
entries, in order, once each. -/
theorem bridge_buffer_replay_in_order_witness :
    sampleWrites.length ≤ 1000 ∧
    (bridgeCore.SetTarget (writeAll [] newBridgeCore sampleWrites)
        levelZeroTarget).target.map TargetCore.observed
      = some ((sampleWrites.filter (fun e => levelZeroTarget.checkOk e.1)).map
          (fun e => (e.1, [] ++ e.2))) :=
  ⟨by decide,
    bridge_buffer_replay_in_order [] sampleWrites levelZeroTarget (by decide) (by decide) rfl⟩

/-- C2: once SetTarget has run, its buffer is empty; the next
non-internal Write forwards the entry directly to the attached target
and returns the target's own result; and across any further sequence of
writes the buffer stays empty and the target stays attached — the
pre-attachment buffering branch is dead. -/
theorem bridge_post_attachment_bypass (s : SharedBridgeState) (core t : TargetCore)
    (bfields fields : List LogField) (ent : Entry) (es : List (Entry × List LogField))
    (ht : (bridgeCore.SetTarget s core).target = some t)
    (hni : nonInternal bfields (ent, fields) = true) :
    (bridgeCore.SetTarget s core).buffer = [] ∧
    bridgeCore.Write bfields (bridgeCore.SetTarget s core) ent fields
      = ({ target := some (t.ceWrite ent (bfields ++ fields)), buffer := [] },
          t.writeErr ent (bfields ++ fields)) ∧
    (writeAll bfields (bridgeCore.SetTarget s core) es).buffer = [] ∧
    ∃ t2, (writeAll bfields (bridgeCore.SetTarget s core) es).target = some t2 := by
  have hguard : ((bfields ++ fields).any (fun f => f.key == internalKey)) = false := by
    simpa [nonInternal] using hni
  have htr : bridgeCore.SetTarget s core = { target := some t, buffer := [] } := by
    unfold bridgeCore.SetTarget at ht ⊢
    simp only [Option.some.injEq] at ht
    rw [ht]
  refine ⟨rfl, ?_, ?_, ?_⟩
  · rw [htr]
    unfold bridgeCore.Write
    simp [hguard]
  · exact (writeAll_after_attach bfields es _ t ht).1.trans rfl
  · exact (writeAll_after_attach bfields es _ t ht).2

/-- Concrete instance of C2: attach an all-accepting recorder to a fresh
bridge, then write one entry; it is forwarded directly with the target's
result, and over a further write the buffer stays empty. -/
theorem bridge_post_attachment_bypass_witness :
    (bridgeCore.SetTarget newBridgeCore acceptAllTarget).buffer = [] ∧
    bridgeCore.Write [] (bridgeCore.SetTarget newBridgeCore acceptAllTarget)
        { level := 1, msg := "after" } [{ key := "k", val := 7 }]
      = ({ target := some (acceptAllTarget.ceWrite { level := 1, msg := "after" }
            ([] ++ [{ key := "k", val := 7 }])), buffer := [] },
          acceptAllTarget.writeErr { level := 1, msg := "after" }
            ([] ++ [{ key := "k", val := 7 }])) ∧
    (writeAll [] (bridgeCore.SetTarget newBridgeCore acceptAllTarget)
        [({ level := 1, msg := "later" }, [])]).buffer = [] ∧
    ∃ t2, (writeAll [] (bridgeCore.SetTarget newBridgeCore acceptAllTarget)
        [({ level := 1, msg := "later" }, [])]).target = some t2 :=
  bridge_post_attachment_bypass newBridgeCore acceptAllTarget acceptAllTarget []
    [{ key := "k", val := 7 }] { level := 1, msg := "after" }
    [({ level := 1, msg := "later" }, [])] rfl (by decide)

/-- C3: a pre-attachment Write appends only while the buffer holds fewer
than 1000 entries, silently drops the entry at 1000, and returns success
either way; writing 1001 non-internal entries before attachment and then
attaching an all-accepting target replays exactly the first 1000
entries, i.e. 1000 entries in total. -/
theorem bridge_bounded_buffer (bfields fields : List LogField) (s : SharedBridgeState)
    (ent : Entry) (es : List (Entry × List LogField)) (t : TargetCore)
    (hs : s.target = none)
    (hni1 : nonInternal bfields (ent, fields) = true)
    (hni : ∀ e ∈ es, nonInternal bfields e = true)
    (hlen : es.length = 1001)
    (hck : t.checkOk = fun _ => true)
    (ht : t.observed = []) :
    (s.buffer.length < 1000 →
      bridgeCore.Write bfields s ent fields
        = ({ s with buffer := s.buffer ++ [{ ent := ent, fields := bfields ++ fields }] },
            none)) ∧
    (1000 ≤ s.buffer.length →
      bridgeCore.Write bfields s ent fields = (s, none)) ∧
    (bridgeCore.SetTarget (writeAll bfields newBridgeCore es) t).target.map
        TargetCore.observed
      = some ((es.take 1000).map (fun e => (e.1, bfields ++ e.2))) ∧
    ((es.take 1000).map (fun e => (e.1, bfields ++ e.2))).length = 1000 := by
  have hguard : ((bfields ++ fields).any (fun f => f.key == internalKey)) = false := by
    simpa [nonInternal] using hni1
  refine ⟨?_, ?_, ?_, ?_⟩
  · intro hlt
    unfold bridgeCore.Write
    simp [hguard, hs, hlt]
  · intro hge
    have hnlt : ¬ s.buffer.length < 1000 := by omega
    unfold bridgeCore.Write
    simp [hguard, hs, hnlt]
  · rw [writeAll_buffering bfields es newBridgeCore rfl hni (by simp [newBridgeCore])]
    have h0 : newBridgeCore.buffer = [] := rfl
    rw [h0]
    simp only [List.length_nil, Nat.sub_zero, List.nil_append]
    unfold bridgeCore.SetTarget
    simp only [Option.map_some']
    rw [(replay_foldl_spec _ t).2.2, ht, hck]
    rw [filter_map_buffered (es.take 1000) bfields (fun _ => true)]
    simp
  · simp [List.length_take, hlen]

/-- 1001 identical sample writes. -/
def manyWrites : List (Entry × List LogField) :=
  List.replicate 1001 ({ level := 0, msg := "w" }, [])

/-- Concrete instance of C3: 1001 entries written before attachment
yield exactly the first 1000 replayed to an all-accepting target. -/
theorem bridge_bounded_buffer_witness :
    manyWrites.length = 1001 ∧
    (bridgeCore.SetTarget (writeAll [] newBridgeCore manyWrites)
        acceptAllTarget).target.map TargetCore.observed
      = some ((manyWrites.take 1000).map (fun e => (e.1, [] ++ e.2))) ∧
    ((manyWrites.take 1000).map
      (fun e => (e.1, ([] : List LogField) ++ e.2))).length = 1000 := by
  have hni : ∀ e ∈ manyWrites, nonInternal [] e = true := by
    intro e he
    simp only [manyWrites, List.mem_replicate] at he
    rcases he with ⟨-, rfl⟩
    decide
  have hlen1001 : manyWrites.length = 1001 := by
    unfold manyWrites
    rw [List.length_replicate]
  have h := bridge_bounded_buffer [] [] newBridgeCore { level := 0, msg := "w" }
      manyWrites acceptAllTarget rfl (by decide) hni hlen1001 rfl rfl
  exact ⟨hlen1001, h.2.2.1, h.2.2.2⟩

/-- C4: a Write whose combined field set (handle's With fields plus
call-time fields) carries the internal marker key returns success having
done nothing — the entry is neither buffered nor forwarded, whatever the
attachment state. -/
theorem bridge_internal_marker_dropped (bfields fields : List LogField)
    (s : SharedBridgeState) (ent : Entry)
    (h : (bfields ++ fields).any (fun f => f.key == internalKey) = true) :
    bridgeCore.Write bfields s ent fields = (s, none) := by
  unfold bridgeCore.Write
  simp [h]

/-- Concrete instance of C4: an internally-marked entry is dropped both
before attachment (marker among the call fields) and after attachment
(marker among the handle's With fields). -/
theorem bridge_internal_marker_dropped_witness :
    bridgeCore.Write [] newBridgeCore { level := 0, msg := "diag" }
        [{ key := "internal", val := 1 }] = (newBridgeCore, none) ∧
    bridgeCore.Write [{ key := "internal", val := 0 }]
        { target := some acceptAllTarget, buffer := [] } { level := 0, msg := "diag" } []
      = ({ target := some acceptAllTarget, buffer := [] }, none) :=
  ⟨bridge_internal_marker_dropped [] [{ key := "internal", val := 1 }] newBridgeCore
      { level := 0, msg := "diag" } (by decide),
    bridge_internal_marker_dropped [{ key := "internal", val := 0 }] []
      { target := some acceptAllTarget, buffer := [] } { level := 0, msg := "diag" }
      (by decide)⟩

/-- The clamp raises exactly the below-floor levels to the floor:
the clamped entry's level is the max of the original level and
DebugLevel. -/
theorem clampLevel_eq (e : Entry) :
    clampLevel e = { e with level := max e.level DebugLevel } := by
  unfold clampLevel
  by_cases h : e.level < DebugLevel
  · rw [if_pos h, max_eq_right (le_of_lt h)]
  · rw [if_neg h, max_eq_left (not_lt.mp h)]

/-- C9: both `rootCore.Check` and `rootCore.Write` clamp the entry's
level up to the floor (DebugLevel, the configured floor of the code)
before recording: Check admits only the clamped entry, Write records
only the clamped entry, and the clamped level is never below the
floor. -/
theorem rootcore_level_floor (c : rootCore) (entry : Entry) (fields : List LogField) :
    rootCore.Check c entry
      = (if c.core.enabledLevels (max entry.level DebugLevel)
          then some { entry with level := max entry.level DebugLevel } else none) ∧
    (rootCore.Write c entry fields).core.written
      = c.core.written ++ [({ entry with level := max entry.level DebugLevel },
          c.core.accFields ++ prefixKeys c.fieldsPfx fields)] ∧
    DebugLevel ≤ max entry.level DebugLevel := by
  refine ⟨?_, ?_, le_max_right _ _⟩
  · unfold rootCore.Check
    rw [clampLevel_eq]
  · unfold rootCore.Write InnerCore.write
    rw [clampLevel_eq]

/-- C10: with a non-empty field-name prefix configured, every field key
— both those added through a derived `With` handle and those passed at
`Write` time — reaches the wrapped backend core rewritten as
prefix_key. -/
theorem rootcore_field_prefixing (c : rootCore) (withFs callFs : List LogField)
    (entry : Entry) (hp : c.fieldsPfx ≠ "") :
    ((c.With withFs).Write entry callFs).core.written
      = c.core.written ++ [(clampLevel entry,
          c.core.accFields
            ++ withFs.map (fun f => { f with key := c.fieldsPfx ++ "_" ++ f.key })
            ++ callFs.map (fun f => { f with key := c.fieldsPfx ++ "_" ++ f.key }))] := by
  unfold rootCore.With rootCore.Write InnerCore.withFields InnerCore.write prefixKeys
  simp [hp, List.append_assoc]

/-- Sample root core with prefix "app" over a fresh inner core that
accepts every level. -/
def appRoot : rootCore :=
  { core := { accFields := [], enabledLevels := fun _ => true, written := [] },
    fieldsPfx := "app" }

/-- Concrete instance of C10: a "count" field added via With and a
"count" field passed to Write are both observed as "app_count". -/
theorem rootcore_field_prefixing_witness :
    ((appRoot.With [{ key := "count", val := 1 }]).Write { level := 0, msg := "m" }
        [{ key := "count", val := 2 }]).core.written
      = [({ level := 0, msg := "m" },
          [{ key := "app_count", val := 1 }, { key := "app_count", val := 2 }])] := by
  rw [rootcore_field_prefixing appRoot [{ key := "count", val := 1 }]
    [{ key := "count", val := 2 }] { level := 0, msg := "m" } (by decide)]
  decide

/-- A fully disabled otel module configuration (every exporter off, the
protocol and service-name defaults in place). -/
def disabledOtel : Otel :=
  { serviceName := "gotenberg", logExporterProtocol := "grpc", enableLogExporter := false,
    metricExporterProcotol := "grpc", enableMetricExporter := false,
    spanExporterProtocol := "grpc", enableSpanExporter := false }

/-- C5 (code bug, evaluated at the failing input): with the span
exporter disabled, `TraceStart` yields no (context, span) pair at all —
the source body is `return nil`, flagged by its own FIXME comment and
contradicting the `TracerProvider` interface contract ("It is the
caller's responsibility to end the span") — instead of the sentinel
no-op span the specification requires. -/
theorem tracestart_disabled_returns_nil :
    Otel.TraceStart disabledOtel (fun c _ => (c + 1, c)) 0 "op" = none := rfl

/-- Otel configuration with all three exporters enabled and valid
Validate-checked fields. -/
def fullOtel : Otel :=
  { serviceName := "gotenberg", logExporterProtocol := "grpc", enableLogExporter := true,
    metricExporterProcotol := "grpc", enableMetricExporter := true,
    spanExporterProtocol := "grpc", enableSpanExporter := true }

/-- Whether a shutdown error is the context-cancellation error. -/
def isCanceled : GoErr → Bool
  | GoErr.canceled => true
  | GoErr.genuine _ => false

/-- Joining the filtered results keeps exactly the non-cancellation
errors among the non-nil inputs, in order. -/
theorem errorsJoin_filterErr (a b c : Option GoErr) :
    errorsJoin [filterErr a, filterErr b, filterErr c]
      = ([a, b, c].filterMap id).filter (fun e => !isCanceled e) := by
  rcases a with _ | (_ | ma) <;> rcases b with _ | (_ | mb) <;>
    rcases c with _ | (_ | mc) <;> simp [errorsJoin, filterErr, isCanceled]

/-- C6: Stop returns exactly the shutdown errors of the enabled
exporters, context-cancellation results mapped to success, joined in
collection order (log, metric, tracer); with no exporter enabled the
selected results are all nil so Stop returns nil, and in the spec's
scenario — one cancellation, one genuine error "X" — only "X" is
reported. -/
theorem otel_stop_aggregation (mod : Otel) (shutLog shutMetric shutTracer : Option GoErr) :
    Otel.Stop mod shutLog shutMetric shutTracer
      = ([if mod.enableLogExporter then shutLog else none,
          if mod.enableMetricExporter then shutMetric else none,
          if mod.enableSpanExporter then shutTracer else none].filterMap id).filter
          (fun e => !isCanceled e) ∧
    Otel.Stop fullOtel (some GoErr.canceled) (some (GoErr.genuine "X")) none
      = [GoErr.genuine "X"] := by
  refine ⟨?_, rfl⟩
  unfold Otel.Stop
  by_cases h : noExporterEnabled mod = true
  · have h3 := h
    simp only [noExporterEnabled, Bool.and_eq_true, Bool.not_eq_true'] at h3
    obtain ⟨⟨hm, hs⟩, hl⟩ := h3
    simp [h, hm, hs, hl]
  · simp only [h, if_false, Bool.false_eq_true]
    exact errorsJoin_filterErr _ _ _

/-- C7: Validate returns nil when no exporter is enabled; otherwise it
collects, in order and without short-circuiting, one error if the
service name is empty plus one error for each enabled exporter whose
transport protocol is not "grpc", and returns them all together. -/
theorem otel_validate_collects (mod : Otel) :
    Otel.Validate mod
      = if noExporterEnabled mod then []
        else ((if mod.serviceName == "" then [svcNameErr] else []) ++
          (if mod.enableLogExporter && !(mod.logExporterProtocol == "grpc")
            then [logProtoErr] else []) ++
          (if mod.enableMetricExporter && !(mod.metricExporterProcotol == "grpc")
            then [metricProtoErr] else []) ++
          (if mod.enableSpanExporter && !(mod.spanExporterProtocol == "grpc")
            then [spanProtoErr] else [])) := by
  unfold Otel.Validate multierrAppend
  split_ifs <;> simp_all

/-- Otel configuration with the metric exporter enabled and every field
Validate checks valid. -/
def metricOtel : Otel :=
  { serviceName := "gotenberg", logExporterProtocol := "grpc", enableLogExporter := false,
    metricExporterProcotol := "grpc", enableMetricExporter := true,
    spanExporterProtocol := "grpc", enableSpanExporter := false }

/-- C8 counterexample: with metrics of unknown instrument kinds 7 and 9
registered under a metric-exporting configuration, Validate reports no
error at all, and Start's instrument dispatch aborts at the first
offending metric only — an unknown instrument kind is neither surfaced
at validation time nor aggregated across offending fields. -/
theorem unknown_instrument_not_validated :
    Otel.Validate metricOtel = [] ∧
    startInstruments
        [{ name := "m1", description := "", instrument := 7 },
          { name := "m2", description := "", instrument := 9 }]
      = some "unknown instrument: 7" := by
  exact ⟨rfl, rfl⟩

/-- C8 amended: an unknown metric instrument kind is surfaced by Start's
instrument dispatch, not by Validate: the dispatch returns the formatted
error for the first metric whose kind is unknown and succeeds when every
kind is known. -/
theorem unknown_instrument_first_at_start (metrics : List Metric) :
    startInstruments metrics
      = (metrics.find? (fun m => !(knownInstrument m))).map
          (fun m => "unknown instrument: " ++ toString m.instrument) := by
  induction metrics with
  | nil => rfl
  | cons m rest ih =>
      by_cases h : knownInstrument m = true
      · simp [startInstruments, h, List.find?_cons, ih]
      · simp only [Bool.not_eq_true] at h
        simp [startInstruments, h, List.find?_cons]
